import Mathlib

/-!
# Verification of `endless_treasure.py`

A shallow embedding of the core logic of the Deck of Endless Treasure
drawer: filename-number extraction (`extract_trailing_number`), folder
scanning (`scan_cards`), the browse index (`index_all_cards`), the
item/card-number maps, the random and custom selection policies, and the
layout compositor (`compose_treasure`).

Modelling conventions:
* A directory is a `List String` of file names; `Path.glob` over the four
  patterns `*.jpg`, `*.JPG`, `*.jpeg`, `*.JPEG` is modelled as the
  concatenation of four case-sensitive suffix filters, matching POSIX
  glob semantics (the source globs the four spellings separately).
* Python `re.search` over the two extraction patterns is modelled
  directly: the strict pattern takes the maximal digit run immediately
  before the extension; the relaxed pattern scans start positions left to
  right exactly as `re.search` does.
* Images are `Img` records carrying width, height and a pixel function.
  Value-level fidelity of resampling (LANCZOS), Gaussian blur and text
  rendering is not modelled: those operations never change geometry, and
  no verified claim depends on their pixel values.  They are represented
  by structure-preserving stand-ins, documented at each definition.
* Machine integers: Python integers are unbounded, so `Nat`/`Int` are
  used without wrap-around.
-/

namespace EndlessTreasure

/-- Numeric value of a forward list of decimal digit characters,
as computed by Python `int` on the matched group. -/
def digitsToNat (ds : List Char) : Nat :=
  ds.foldl (fun a c => a * 10 + (c.toNat - '0'.toNat)) 0

/-- Case-insensitive prefix test: `pat` is a lowercase pattern, compared
against the `Char.toLower` image of the front of `l`. -/
def ciStarts : List Char → List Char → Bool
  | [], _ => true
  | _ :: _, [] => false
  | p :: ps, c :: cs => p == Char.toLower c && ciStarts ps cs

/-- Case-insensitive whole-list equality against a lowercase pattern. -/
def ciEq (pat l : List Char) : Bool :=
  l.map Char.toLower == pat

/-- Length of the recognised extension (`.jpg` → 4, `.jpeg` → 5), read
from the reversed file name; mirrors the case-insensitive
`\.(?:jpe?g)$` lookahead of both extraction regexes. -/
def extLenRev (r : List Char) : Option Nat :=
  if ciStarts ['g', 'p', 'j', '.'] r then some 4
  else if ciStarts ['g', 'e', 'p', 'j', '.'] r then some 5
  else none

/-- Separator characters admitted by the relaxed pattern `[ _-]*`. -/
def sepChar (c : Char) : Bool :=
  c == ' ' || c == '_' || c == '-'

/-- The optional suffix `(?:front|back|a|b)?` of the relaxed pattern:
the remaining tail must be empty or one of the four words
(case-insensitive), so that the match ends exactly at the extension. -/
def relaxedTail (t : List Char) : Bool :=
  t == [] || ciEq ['f', 'r', 'o', 'n', 't'] t || ciEq ['b', 'a', 'c', 'k'] t ||
    ciEq ['a'] t || ciEq ['b'] t

/-- Attempt of the relaxed pattern at one start position of the stem:
a digit run, then separators, then an admissible tail reaching the
extension.  Greedy `\d+` must take the whole run (the following
alternatives match no digit), so no further backtracking exists. -/
def relaxedAt (l : List Char) : Option Nat :=
  match l with
  | [] => none
  | c :: cs =>
    if c.isDigit then
      let run := c :: cs.takeWhile Char.isDigit
      let rest := cs.dropWhile Char.isDigit
      if relaxedTail (rest.dropWhile sepChar) then some (digitsToNat run) else none
    else none

/-- `re.search` for the relaxed pattern: try every start position left to
right, returning the leftmost successful match. -/
def relaxedSearch : List Char → Option Nat
  | [] => none
  | c :: cs =>
    match relaxedAt (c :: cs) with
    | some n => some n
    | none => relaxedSearch cs

/-- `extract_trailing_number` from the source: strict pattern
`(\d+)(?=\.(?:jpe?g)$)` (maximal digit run right before the extension),
else relaxed pattern `(\d+)[ _-]*(?:front|back|a|b)?(?=\.(?:jpe?g)$)`,
else `None`. -/
def extract_trailing_number (p : String) : Option Nat :=
  let r := p.data.reverse
  match extLenRev r with
  | none => none
  | some k =>
    let rstem := r.drop k
    let rd := rstem.takeWhile Char.isDigit
    if rd.isEmpty then relaxedSearch rstem.reverse
    else some (digitsToNat rd.reverse)

/-- Case-sensitive suffix test on file names (one glob pattern). -/
def hasExt (sfx : List Char) (p : String) : Bool :=
  sfx.reverse.isPrefixOf p.data.reverse

/-- The concatenated result of the four globs
`*.jpg ++ *.JPG ++ *.jpeg ++ *.JPEG` over the directory listing. -/
def globJpgs (files : List String) : List String :=
  files.filter (hasExt ['.', 'j', 'p', 'g']) ++
    files.filter (hasExt ['.', 'J', 'P', 'G']) ++
    files.filter (hasExt ['.', 'j', 'p', 'e', 'g']) ++
    files.filter (hasExt ['.', 'J', 'P', 'E', 'G'])

/-- Does the file qualify for the random scanner with parity `odd`?
(number extracted, in [21, 220], of that parity). -/
def scanKeep (odd : Bool) (p : String) : Bool :=
  match extract_trailing_number p with
  | none => false
  | some n => 21 ≤ n && n ≤ 220 && (if odd then n % 2 == 1 else n % 2 == 0)

/-- `scan_cards` from the source: the loop appending each qualifying file
to the `fronts` (odd) or `backs` (even) list is expressed as two filters
over the globbed listing, which preserves content and order. -/
def scan_cards (files : List String) : List String × List String :=
  let jpgs := globJpgs files
  (jpgs.filter (scanKeep true), jpgs.filter (scanKeep false))

/-! ## Browse index (`index_all_cards`) -/

/-- The Python sort key `q.name.lower()` (code points, ASCII lowering). -/
def lowerName (p : String) : List Char :=
  p.data.map Char.toLower

/-- Lexicographic code-point order on char lists, Python `str` `<=`. -/
def lexLe : List Char → List Char → Bool
  | [], _ => true
  | _ :: _, [] => false
  | a :: as, b :: bs => a.toNat < b.toNat || (a.toNat == b.toNat && lexLe as bs)

/-- Stable insertion of one file into a list sorted by `lowerName`. -/
def insLower (p : String) : List String → List String
  | [] => [p]
  | q :: qs => if lexLe (lowerName p) (lowerName q) then p :: q :: qs else q :: insLower p qs

/-- `sorted(paths, key=lambda q: q.name.lower())`: stable sort by the
case-insensitive name (insertion sort; stability matches Python). -/
def sortedLower : List String → List String
  | [] => []
  | p :: ps => insLower p (sortedLower ps)

/-- The bucket of the browse index for card number `n`: the globbed files
whose extracted number is `n`, kept only for `1 ≤ n ≤ 220` (the dict
`buckets` of the source stores exactly these). -/
def bucketFiles (files : List String) (n : Nat) : List String :=
  if 1 ≤ n ∧ n ≤ 220 then
    (globJpgs files).filter (fun p => extract_trailing_number p == some n)
  else []

/-- `chosen[n]` before the special-case patch: the first path of the
bucket sorted by case-insensitive name, when the bucket is nonempty. -/
def chosenBase (files : List String) (n : Nat) : Option String :=
  (sortedLower (bucketFiles files n)).head?

/-- Globbed files from which no number could be extracted (the
`unnumbered` list of the source). -/
def unnumberedFiles (files : List String) : List String :=
  (globJpgs files).filter (fun p => extract_trailing_number p == none)

/-- `Path.stem`: the file name without its final suffix (a leading-dot
name has no suffix, as in `pathlib`). -/
def stemOf (p : String) : List Char :=
  match p.data.reverse.dropWhile (fun c => c ≠ '.') with
  | [] => p.data
  | _ :: rest => if rest.isEmpty then p.data else rest.reverse

/-- `_strip_trailing_digits`: remove the maximal trailing digit run. -/
def stripTrailingDigits (s : List Char) : List Char :=
  (s.reverse.dropWhile Char.isDigit).reverse

/-- The candidates of the special-case #1 inference: unnumbered files
whose digit-stripped stem equals that of card #2's chosen file `p2`. -/
def inferredCandidates (files : List String) (p2 : String) : List String :=
  (unnumberedFiles files).filter
    (fun p => stripTrailingDigits (stemOf p) == stripTrailingDigits (stemOf p2))

/-- `index_all_cards`, as a map from card number to chosen path: every
number takes its bucket's case-insensitively first file; additionally,
if card #1 is absent, #2 present and some unnumbered file's
digit-stripped stem equals that of #2's file, card #1 takes the
first-sorting such file. -/
def index_all_cards (files : List String) (n : Nat) : Option String :=
  if n = 1 ∧ chosenBase files 1 = none then
    match chosenBase files 2 with
    | none => none
    | some p2 => (sortedLower (inferredCandidates files p2)).head?
  else chosenBase files n

/-! ## Item/card-number maps -/

/-- `BrowserFrame._item_num_for_card`: for `n` in [21, 220], the item
number of the pair `(odd, odd+1)` containing `n`. -/
def item_num_for_card (n : Nat) : Option Nat :=
  if 21 ≤ n ∧ n ≤ 220 then
    some (((if n % 2 = 1 then n else n - 1) - 21) / 2 + 1)
  else none

/-- `CustomFrame._front_card_num_for_item`: the front card number of an
item. -/
def front_card_num_for_item (item : Nat) : Nat :=
  21 + (item - 1) * 2

/-- `BrowserFrame._card_num_for_item`: the preferred (front) card number
of an item, falling back to the back when only it is indexed. -/
def card_num_for_item (idx : Nat → Option String) (item : Nat) : Option Nat :=
  let front := 21 + (item - 1) * 2
  let back := front + 1
  if (idx front).isSome then some front
  else if (idx back).isSome then some back
  else none

/-! ## Layout constants (verbatim from the source header) -/

def CARD_W : Nat := 744
def CARD_H : Nat := 1039
def OFF_BACK2 : Int × Int := (0, 595)
def OFF_BACK3 : Int × Int := (-234, 144)
def OFF_FRONT : Int × Int := (0, 144)
/-- Crop box `(left, top, right, bottom)` for the standalone back. -/
def CROP_BOX : Int × Int × Int × Int := (238, 233, 738, 575)
def BG_COLOR : Nat × Nat × Nat := (16, 59, 44)
def OUTER_MARGIN : Int := 40
def RIGHT_GAP : Int := 60
def SHADOW_OFFSET : Int × Int := (10, 10)
def SHADOW_ALPHA : Nat := 90

/-! ## Images and the compositor

An image is its dimensions plus a pixel function (RGBA bytes).  The
pixel-level stand-ins below preserve geometry exactly; resampling
kernels, Gaussian blur and text rasterisation are not modelled at value
level (no verified claim reads those pixel values). -/

/-- RGBA pixel. -/
def Pixel : Type := Nat × Nat × Nat × Nat

/-- An in-memory RGBA image. -/
structure Img where
  width : Nat
  height : Nat
  pix : Nat → Nat → Pixel

/-- Uniform canvas of a given size and fill. -/
def mkImage (w h : Nat) (fill : Pixel) : Img :=
  ⟨w, h, fun _ _ => fill⟩

/-- `Image.resize((w, h), LANCZOS)`: dimension-exact; the LANCZOS kernel
is abstracted by index resampling (geometry-faithful stand-in). -/
def resizeTo (w h : Nat) (im : Img) : Img :=
  ⟨w, h, fun i j => im.pix (i * im.width / max w 1) (j * im.height / max h 1)⟩

/-- Membership in a filled rounded rectangle of size `w × h` with corner
radius `r` (model of `ImageDraw.rounded_rectangle`). -/
def inRoundedRect (w h r : Int) (i j : Int) : Bool :=
  0 ≤ i && i < w && 0 ≤ j && j < h &&
    (let cx : Int := if i < r then r else if i ≥ w - r then w - 1 - r else i
     let cy : Int := if j < r then r else if j ≥ h - r then h - 1 - r else j
     (i - cx) ^ 2 + (j - cy) ^ 2 ≤ r ^ 2)

/-- The card-shaped shadow silhouette (black, `SHADOW_ALPHA`). -/
def shadowSilhouette (w h r : Nat) : Img :=
  ⟨w, h, fun i j =>
    if inRoundedRect w h r i j then (0, 0, 0, SHADOW_ALPHA) else (0, 0, 0, 0)⟩

/-- `GaussianBlur`: redistributes pixel values inside the same raster;
modelled as the identity (it never changes geometry, and no claim reads
blurred values). -/
def gaussianBlur (_radius : Nat) (im : Img) : Img := im

/-- Porter-Duff source-over on bytes (integer approximation of
`Image.alpha_composite`). -/
def overPix (s d : Pixel) : Pixel :=
  let (sr, sg, sb, sa) := s
  let (dr, dg, db, da) := d
  let ao := sa + da * (255 - sa) / 255
  if ao = 0 then (0, 0, 0, 0)
  else ((sr * sa + dr * da * (255 - sa) / 255) / ao,
        (sg * sa + dg * da * (255 - sa) / 255) / ao,
        (sb * sa + db * da * (255 - sa) / 255) / ao, ao)

/-- `canvas.alpha_composite(src, (x, y))`: paste `src` over `dst` at the
given offset; the canvas raster is unchanged. -/
def alphaComposite (dst src : Img) (x y : Int) : Img :=
  ⟨dst.width, dst.height, fun i j =>
    let ii : Int := (i : Int) - x
    let jj : Int := (j : Int) - y
    if 0 ≤ ii ∧ ii < (src.width : Int) ∧ 0 ≤ jj ∧ jj < (src.height : Int) then
      overPix (src.pix ii.toNat jj.toNat) (dst.pix i j)
    else dst.pix i j⟩

/-- `paste_with_shadow`: blurred rounded-rectangle shadow offset by
`SHADOW_OFFSET`, then the card itself. -/
def paste_with_shadow (canvas card : Img) (x y : Int) : Img :=
  let shadow := gaussianBlur 10 (shadowSilhouette CARD_W CARD_H 28)
  let withShadow := alphaComposite canvas shadow (x + SHADOW_OFFSET.1) (y + SHADOW_OFFSET.2)
  alphaComposite withShadow card x y

/-- `im.crop((l, t, r, b))`. -/
def cropImg (im : Img) (l t r b : Int) : Img :=
  ⟨(r - l).toNat, (b - t).toNat, fun i j => im.pix (i + l.toNat) (j + t.toNat)⟩

/-- The front-card number/side label overlay (lines 196-215): draws a
small rounded box and text inside the existing canvas raster; text
metrics are not modelled, so the pixel effect is the identity — it can
never change the canvas dimensions. -/
def labelOverlay (canvas : Img) : Img := canvas

/-! ### Geometry of `compose_treasure` (straight-line lets of the source) -/

/-- `base_x = OUTER_MARGIN + abs(OFF_BACK3[0])`. -/
def base_x : Int := OUTER_MARGIN + (Int.natAbs OFF_BACK3.1 : Int)
def base_y : Int := OUTER_MARGIN

def p1 : Int × Int := (base_x, base_y)
def p2 : Int × Int := (base_x + OFF_BACK2.1, base_y + OFF_BACK2.2)
def p3 : Int × Int := (base_x + OFF_BACK3.1, base_y + OFF_BACK3.2)
def p4 : Int × Int := (base_x + OFF_FRONT.1, base_y + OFF_FRONT.2)

def clusterLeft : Int := min p1.1 (min p2.1 (min p3.1 p4.1))
def clusterRight : Int := max p1.1 (max p2.1 (max p3.1 p4.1)) + (CARD_W : Int)
def clusterTop : Int := min p1.2 (min p2.2 (min p3.2 p4.2))
def clusterBottom : Int := max p1.2 (max p2.2 (max p3.2 p4.2)) + (CARD_H : Int)

def crop_w : Int := CROP_BOX.2.2.1 - CROP_BOX.1
def crop_h : Int := CROP_BOX.2.2.2 - CROP_BOX.2.1
def panel_x : Int := clusterRight + RIGHT_GAP
def panel_y : Int := OUTER_MARGIN

def canvas_w : Int := panel_x + crop_w + OUTER_MARGIN
def canvas_h : Int := max (clusterBottom + OUTER_MARGIN) (panel_y + crop_h + OUTER_MARGIN)

/-- The painting pipeline of `compose_treasure` after all five images
are loaded: background, four cards with shadows, matted cropped panel,
optional label overlay. -/
def compose_canvas (im_back1 im_back2 im_back3 im_front im_crop_src : Img) : Img :=
  let canvas := mkImage canvas_w.toNat canvas_h.toNat
    (BG_COLOR.1, BG_COLOR.2.1, BG_COLOR.2.2, 255)
  let canvas := paste_with_shadow canvas im_back1 p1.1 p1.2
  let canvas := paste_with_shadow canvas im_back2 p2.1 p2.2
  let canvas := paste_with_shadow canvas im_back3 p3.1 p3.2
  let canvas := paste_with_shadow canvas im_front p4.1 p4.2
  let im_crop := cropImg im_crop_src CROP_BOX.1 CROP_BOX.2.1 CROP_BOX.2.2.1 CROP_BOX.2.2.2
  let mat_pad : Nat := 16
  let mat := mkImage (im_crop.width + mat_pad * 2) (im_crop.height + mat_pad * 2)
    (238, 234, 216, 255)
  let shadow := gaussianBlur 10
    (shadowSilhouette (im_crop.width + mat_pad * 2) (im_crop.height + mat_pad * 2) 20)
  let canvas := alphaComposite canvas shadow (panel_x + SHADOW_OFFSET.1) (panel_y + SHADOW_OFFSET.2)
  let canvas := alphaComposite canvas mat panel_x panel_y
  let canvas := alphaComposite canvas im_crop (panel_x + (mat_pad : Int)) (panel_y + (mat_pad : Int))
  labelOverlay canvas

/-- A file unreadable or undecodable by `Image.open`; the exception
carries the offending path. -/
structure ImageLoadError where
  path : String
deriving DecidableEq

/-- The inner `load_card`: decode the file (the file system is a map
from path to decoded image, `none` = unreadable), convert to RGBA, and
resample to the reference card size when the dimensions differ. -/
def load_card (fs : String → Option Img) (p : String) : Except ImageLoadError Img :=
  match fs p with
  | none => Except.error ⟨p⟩
  | some im =>
    Except.ok (if im.width = CARD_W ∧ im.height = CARD_H then im else resizeTo CARD_W CARD_H im)

/-- `compose_treasure`: load the four positioned cards, then the crop
source (the source's load order `back1, back2, back3, front, back_for_crop`),
and paint; any failed load aborts the whole render with the error. -/
def compose_treasure (fs : String → Option Img)
    (back1 back2 back3 back_for_crop front : String) : Except ImageLoadError Img := do
  let im_back1 ← load_card fs back1
  let im_back2 ← load_card fs back2
  let im_back3 ← load_card fs back3
  let im_front ← load_card fs front
  let im_crop_src ← load_card fs back_for_crop
  pure (compose_canvas im_back1 im_back2 im_back3 im_front im_crop_src)

/-! ## Random selection (`RandomFrame`)

`random.sample(pop, k)` draws `k` elements without replacement and
raises when `k` exceeds the population; `random.choice` raises on an
empty sequence.  The RNG stream is abstracted by a `Nat` seed consumed
as successive remainders. -/

/-- `random.sample(l, k)`: repeatedly remove the element at a
seed-determined index.  `none` models the `ValueError` for `k > len(l)`. -/
def randomSample {α : Type} : List α → Nat → Nat → Option (List α)
  | _, 0, _ => some []
  | l, k + 1, r =>
    if h : l.length = 0 then none
    else
      let i := r % l.length
      have hi : i < l.length := Nat.mod_lt _ (Nat.pos_of_ne_zero h)
      (randomSample (l.eraseIdx i) k (r / l.length)).map (fun rest => l.get ⟨i, hi⟩ :: rest)

/-- `random.choice(l)`: `none` models the `IndexError` on empty `l`. -/
def randomChoice {α : Type} (l : List α) (r : Nat) : Option α :=
  if h : l.length = 0 then none
  else some (l.get ⟨r % l.length, Nat.mod_lt _ (Nat.pos_of_ne_zero h)⟩)

/-- `RandomFrame.pick_random`: 4 backs without replacement, then one
front. -/
def pick_random (backs fronts : List String) (r : Nat) : Option (List String × String) := do
  let back_choices ← randomSample backs 4 r
  let front_choice ← randomChoice fronts r
  pure (back_choices, front_choice)

/-- The state `RandomFrame.generate` mutates on success: the last
full-resolution canvas and the recorded file names. -/
structure RandomState where
  fullres_image : Option Img
  current_files : List (String × String)

/-- `RandomFrame.generate`: pick, compose, then commit the new canvas
and names; any exception (insufficient cards or a failed image load)
reaches the `except` arm, which only shows a dialog — the prior state is
returned untouched.  The second component is the dialog text, `none` on
success. -/
def generate (fs : String → Option Img) (backs fronts : List String) (r : Nat)
    (st : RandomState) : RandomState × Option String :=
  match pick_random backs fronts r with
  | none => (st, some "not enough cards to sample")
  | some (bs, front) =>
    match bs with
    | [b1, b2, b3, b_crop] =>
      match compose_treasure fs b1 b2 b3 b_crop front with
      | Except.error e => (st, some e.path)
      | Except.ok img =>
        ({ fullres_image := some img,
           current_files := [("Back #1", b1), ("Back #2", b2), ("Back #3", b3),
             ("Front", front), ("Cropped Back", b_crop)] }, none)
    | _ => (st, some "unpacking failed")

/-! ## Custom selection (`CustomFrame`) -/

/-- `CustomFrame._parse_item`: `int(s.strip())` then the 1..100 range
check; `none` models both the `ValueError` and an out-of-range value. -/
def parse_item (s : String) : Option Nat :=
  let t := ((s.data.dropWhile (fun c => c == ' ')).reverse.dropWhile (fun c => c == ' ')).reverse
  match t with
  | [] => none
  | c :: cs =>
    let signed := if c = '-' then (true, cs) else if c = '+' then (false, cs) else (false, c :: cs)
    let neg := signed.1
    let ds := signed.2
    if ds ≠ [] ∧ ds.all Char.isDigit then
      if neg then none
      else
        let v := digitsToNat ds
        if 1 ≤ v ∧ v ≤ 100 then some v else none
    else none

/-- `CustomFrame._path_for_item`: prefer the front face when
`prefer_front`, else the back face, falling back to the opposite face. -/
def path_for_item (idx : Nat → Option String) (item : Nat) (prefer_front : Bool) :
    Option String :=
  let front := front_card_num_for_item item
  let back := front + 1
  if prefer_front then (idx front).orElse (fun _ => idx back)
  else (idx back).orElse (fun _ => idx front)

/-- The five labelled inputs of `render_custom`, in source order:
role name, entry text, prefer-front flag. -/
def customLabels (frontTxt b1 b2 b3 bc : String) : List (String × String × Bool) :=
  [("Front", frontTxt, true), ("Back #1", b1, false), ("Back #2", b2, false),
   ("Back #3", b3, false), ("Plot Hook", bc, false)]

/-- The `missing` message for an unresolvable valid item. -/
def missingMsg (name : String) (item : Nat) (side : String) : String :=
  name ++ ": item " ++ Nat.repr item ++ " has no " ++ side ++ " card found"

/-- The `missing` message for an unparsable or out-of-range entry. -/
def invalidMsg (name txt : String) : String :=
  name ++ ": invalid item # \x27" ++ txt ++ "\x27 (1–100)"

/-- One iteration of the `render_custom` loop: the message appended to
`missing` for this role, or `none` when the role resolves. -/
def roleIssue (idx : Nat → Option String) (role : String × String × Bool) : Option String :=
  match parse_item role.2.1 with
  | none => some (invalidMsg role.1 role.2.1)
  | some item =>
    match path_for_item idx item role.2.2 with
    | none => some (missingMsg role.1 item (if role.2.2 then "front" else "back"))
    | some _ => none

/-- The resolved `(item, path)` for one role, when it resolves. -/
def resolveRole (idx : Nat → Option String) (role : String × String × Bool) :
    Option (Nat × String) :=
  (parse_item role.2.1).bind fun item =>
    (path_for_item idx item role.2.2).map fun p => (item, p)

/-- `CustomFrame.render_custom` up to the compositor call: collect every
failing role's message; if any, the warning dialog shows them all and no
render happens; otherwise the five resolved paths are passed to
`compose_treasure` as `(back1, back2, back3, back_crop, front)`. -/
def render_custom (idx : Nat → Option String) (frontTxt b1 b2 b3 bc : String) :
    Except (List String) (String × String × String × String × String) :=
  let labels := customLabels frontTxt b1 b2 b3 bc
  let missing := labels.filterMap (roleIssue idx)
  if missing.isEmpty then
    match resolveRole idx ("Front", frontTxt, true),
        resolveRole idx ("Back #1", b1, false), resolveRole idx ("Back #2", b2, false),
        resolveRole idx ("Back #3", b3, false), resolveRole idx ("Plot Hook", bc, false) with
    | some (_, pf), some (_, pb1), some (_, pb2), some (_, pb3), some (_, pbc) =>
      Except.ok (pb1, pb2, pb3, pbc, pf)
    | _, _, _, _, _ => Except.error []
  else Except.error missing

/-! ## Helper lemmas -/

/-- Run analysis of `compose_treasure`: it returns either a complete
canvas (with all five files loadable) or the first load error, whose
path is one of the five inputs and is indeed unloadable. -/
theorem compose_treasure_cases (fs : String → Option Img) (b1 b2 b3 bc f : String) :
    (∃ i1 i2 i3 i4 i5, compose_treasure fs b1 b2 b3 bc f = Except.ok (compose_canvas i1 i2 i3 i4 i5) ∧
      (fs b1).isSome ∧ (fs b2).isSome ∧ (fs b3).isSome ∧ (fs f).isSome ∧ (fs bc).isSome) ∨
    (∃ p, compose_treasure fs b1 b2 b3 bc f = Except.error ⟨p⟩ ∧ fs p = none ∧
      (p = b1 ∨ p = b2 ∨ p = b3 ∨ p = f ∨ p = bc)) := by
  unfold compose_treasure load_card
  cases h1 : fs b1 with
  | none => exact Or.inr ⟨b1, rfl, h1, Or.inl rfl⟩
  | some i1 =>
    cases h2 : fs b2 with
    | none => exact Or.inr ⟨b2, rfl, h2, Or.inr (Or.inl rfl)⟩
    | some i2 =>
      cases h3 : fs b3 with
      | none => exact Or.inr ⟨b3, rfl, h3, Or.inr (Or.inr (Or.inl rfl))⟩
      | some i3 =>
        cases h4 : fs f with
        | none => exact Or.inr ⟨f, rfl, h4, Or.inr (Or.inr (Or.inr (Or.inl rfl)))⟩
        | some i4 =>
          cases h5 : fs bc with
          | none => exact Or.inr ⟨bc, rfl, h5, Or.inr (Or.inr (Or.inr (Or.inr rfl)))⟩
          | some i5 => exact Or.inl ⟨_, _, _, _, _, rfl, rfl, rfl, rfl, rfl, rfl⟩

/-! ### Facts about sampling without replacement -/

theorem get_not_mem_eraseIdx {α : Type} (l : List α) (i : Nat) (h : i < l.length)
    (hn : l.Nodup) : l.get ⟨i, h⟩ ∉ l.eraseIdx i := by
  intro hmem
  rw [List.mem_eraseIdx_iff_getElem] at hmem
  obtain ⟨j, hj, hji, hjv⟩ := hmem
  rw [List.get_eq_getElem] at hjv
  exact hji (hn.getElem_inj_iff.1 hjv)

/-- `random.sample(l, k)` succeeds exactly when the population suffices
(`ValueError` otherwise). -/
theorem randomSample_isSome {α : Type} (k : Nat) (l : List α) (r : Nat) :
    (randomSample l k r).isSome = true ↔ k ≤ l.length := by
  induction k generalizing l r with
  | zero => simp [randomSample]
  | succ k ih =>
    rw [randomSample]
    by_cases h : l.length = 0
    · rw [dif_pos h]
      simp
      omega
    · rw [dif_neg h]
      have hi : r % l.length < l.length := Nat.mod_lt _ (Nat.pos_of_ne_zero h)
      have hlen : (l.eraseIdx (r % l.length)).length = l.length - 1 := by
        rw [List.length_eraseIdx, if_pos hi]
      dsimp only
      cases hrec : randomSample (l.eraseIdx (r % l.length)) k (r / l.length) with
      | none =>
        constructor
        · intro hx
          exact Bool.noConfusion hx
        · intro hx
          have hk : k ≤ (l.eraseIdx (r % l.length)).length := by omega
          have hsome := (ih (l.eraseIdx (r % l.length)) (r / l.length)).2 hk
          rw [hrec] at hsome
          exact Bool.noConfusion hsome
      | some out =>
        constructor
        · intro
          have hsome : (randomSample (l.eraseIdx (r % l.length)) k (r / l.length)).isSome = true := by
            rw [hrec]
            rfl
          have := (ih _ (r / l.length)).1 hsome
          omega
        · intro
          rfl

/-- A successful `random.sample(l, k)` draws `k` elements of `l` without
replacement: distinct positions, hence pairwise-distinct values whenever
the population has no duplicates. -/
theorem randomSample_spec {α : Type} (k : Nat) (l : List α) (r : Nat) (out : List α)
    (h : randomSample l k r = some out) :
    out.length = k ∧ (∀ x ∈ out, x ∈ l) ∧ (l.Nodup → out.Nodup) := by
  induction k generalizing l r out with
  | zero =>
    rw [randomSample] at h
    cases h
    exact ⟨rfl, by simp, fun _ => List.nodup_nil⟩
  | succ k ih =>
    rw [randomSample] at h
    by_cases h0 : l.length = 0
    · rw [dif_pos h0] at h
      cases h
    · rw [dif_neg h0] at h
      dsimp only at h
      have hi : r % l.length < l.length := Nat.mod_lt _ (Nat.pos_of_ne_zero h0)
      cases hrec : randomSample (l.eraseIdx (r % l.length)) k (r / l.length) with
      | none => rw [hrec] at h; cases h
      | some rest =>
        rw [hrec] at h
        cases h
        obtain ⟨hl, hm, hn⟩ := ih _ _ _ hrec
        refine ⟨by simp [hl], ?_, ?_⟩
        · intro x hx
          rcases List.mem_cons.1 hx with rfl | hx
          · exact List.get_mem _ _ _
          · exact List.mem_of_mem_eraseIdx (hm x hx)
        · intro hnd
          refine List.nodup_cons.2 ⟨?_, hn (List.Nodup.eraseIdx _ hnd)⟩
          intro hmem
          exact get_not_mem_eraseIdx l _ hi hnd (hm _ hmem)

/-- `random.choice` succeeds exactly on a nonempty sequence, returning a
member. -/
theorem randomChoice_spec {α : Type} (l : List α) (r : Nat) :
    ((randomChoice l r).isSome = true ↔ 1 ≤ l.length) ∧
    (∀ x, randomChoice l r = some x → x ∈ l) := by
  constructor
  · unfold randomChoice
    by_cases h : l.length = 0
    · rw [dif_pos h]
      constructor
      · intro hx
        exact Bool.noConfusion hx
      · intro hx
        exact absurd hx (by omega)
    · rw [dif_neg h]
      constructor
      · intro
        omega
      · intro
        rfl
  · intro x hx
    unfold randomChoice at hx
    by_cases h : l.length = 0
    · rw [dif_pos h] at hx
      cases hx
    · rw [dif_neg h] at hx
      cases hx
      exact List.get_mem _ _ _

/-! ### Facts about number extraction on decomposed names -/

theorem takeWhile_append_of_all {p : Char → Bool} (a b : List Char) (ha : a.all p = true) :
    (a ++ b).takeWhile p = a ++ b.takeWhile p := by
  induction a with
  | nil => rfl
  | cons c cs ih =>
    rw [List.all_cons, Bool.and_eq_true] at ha
    simp [List.takeWhile_cons, ha.1, ih ha.2]

/-- Computation of `extract_trailing_number` once the reversed name is
decomposed as recognised extension, digit run, digit-free stem. -/
theorem extract_concat (er : List Char) (k : Nat) (stem ds : List Char) (name : String)
    (hname : name.data.reverse = er ++ (ds.reverse ++ stem.reverse))
    (hk : extLenRev (er ++ (ds.reverse ++ stem.reverse)) = some k)
    (hdrop : (er ++ (ds.reverse ++ stem.reverse)).drop k = ds.reverse ++ stem.reverse)
    (htake : (ds.reverse ++ stem.reverse).takeWhile Char.isDigit = ds.reverse)
    (hne : (ds.reverse).isEmpty = false) :
    extract_trailing_number name = some (digitsToNat ds) := by
  unfold extract_trailing_number
  rw [hname]
  dsimp only
  rw [hk]
  dsimp only
  rw [hdrop, htake, hne, if_neg (by decide : ¬false = true), List.reverse_reverse]

/-- The four globbed extensions, as char lists. -/
def globExts : List (List Char) :=
  [['.', 'j', 'p', 'g'], ['.', 'J', 'P', 'G'],
   ['.', 'j', 'p', 'e', 'g'], ['.', 'J', 'P', 'E', 'G']]

/-- Extraction succeeds with the value of the trailing digit run on any
name `stem ++ digits ++ ext` whose stem does not end in a digit and
whose extension is one of the globbed four. -/
theorem extract_of_decomposition (stem ds ext : List Char) (name : String)
    (hname : name.data = stem ++ ds ++ ext) (hext : ext ∈ globExts) (hds : ds ≠ [])
    (hdig : ds.all Char.isDigit = true)
    (hstem : ∀ c, stem.getLast? = some c → c.isDigit = false) :
    extract_trailing_number name = some (digitsToNat ds) := by
  have hrev : name.data.reverse = ext.reverse ++ (ds.reverse ++ stem.reverse) := by
    rw [hname, List.reverse_append, List.reverse_append]
  have hstem' : stem.reverse.takeWhile Char.isDigit = [] := by
    cases hsr : stem.reverse with
    | nil => rfl
    | cons c cs =>
      have hc : stem.getLast? = some c := by rw [← List.head?_reverse, hsr]; rfl
      simp [List.takeWhile_cons, hstem c hc]
  have hdsrev : ds.reverse.all Char.isDigit = true := by
    rw [List.all_eq_true] at hdig ⊢
    intro c hc
    exact hdig c (List.mem_reverse.1 hc)
  have htake : (ds.reverse ++ stem.reverse).takeWhile Char.isDigit = ds.reverse := by
    rw [takeWhile_append_of_all _ _ hdsrev, hstem', List.append_nil]
  have hne : (ds.reverse).isEmpty = false := by
    cases hd : ds.reverse with
    | nil => exact absurd (by rw [← List.reverse_reverse ds, hd]; rfl) hds
    | cons _ _ => rfl
  have hext' : ext = ['.', 'j', 'p', 'g'] ∨ ext = ['.', 'J', 'P', 'G'] ∨
      ext = ['.', 'j', 'p', 'e', 'g'] ∨ ext = ['.', 'J', 'P', 'E', 'G'] := by
    simpa [globExts] using hext
  rcases hext' with rfl | rfl | rfl | rfl
  · exact extract_concat _ 4 stem ds name hrev rfl rfl htake hne
  · exact extract_concat _ 4 stem ds name hrev rfl rfl htake hne
  · exact extract_concat _ 5 stem ds name hrev rfl rfl htake hne
  · exact extract_concat _ 5 stem ds name hrev rfl rfl htake hne

/-- A file with one of the four exact extensions is listed by the glob. -/
theorem mem_globJpgs (files : List String) (p : String) (hp : p ∈ files)
    (h : hasExt ['.', 'j', 'p', 'g'] p = true ∨ hasExt ['.', 'J', 'P', 'G'] p = true ∨
      hasExt ['.', 'j', 'p', 'e', 'g'] p = true ∨ hasExt ['.', 'J', 'P', 'E', 'G'] p = true) :
    p ∈ globJpgs files := by
  unfold globJpgs
  rcases h with h | h | h | h
  · exact List.mem_append_left _ (List.mem_append_left _
      (List.mem_append_left _ (List.mem_filter.2 ⟨hp, h⟩)))
  · exact List.mem_append_left _ (List.mem_append_left _
      (List.mem_append_right _ (List.mem_filter.2 ⟨hp, h⟩)))
  · exact List.mem_append_left _ (List.mem_append_right _ (List.mem_filter.2 ⟨hp, h⟩))
  · exact List.mem_append_right _ (List.mem_filter.2 ⟨hp, h⟩)

/-- `scanKeep` once the extracted number is known. -/
theorem scanKeep_eval (odd : Bool) (p : String) (n : Nat)
    (h : extract_trailing_number p = some n) :
    scanKeep odd p =
      (decide (21 ≤ n) && decide (n ≤ 220) && (if odd then n % 2 == 1 else n % 2 == 0)) := by
  unfold scanKeep
  rw [h]

theorem scanKeep_none (odd : Bool) (p : String)
    (h : extract_trailing_number p = none) : scanKeep odd p = false := by
  unfold scanKeep
  rw [h]

theorem scanKeep_true_iff (p : String) (n : Nat)
    (h : extract_trailing_number p = some n) :
    scanKeep true p = true ↔ (21 ≤ n ∧ n ≤ 220 ∧ n % 2 = 1) := by
  rw [scanKeep_eval true p n h]
  simp [and_assoc]

theorem scanKeep_false_iff (p : String) (n : Nat)
    (h : extract_trailing_number p = some n) :
    scanKeep false p = true ↔ (21 ≤ n ∧ n ≤ 220 ∧ n % 2 = 0) := by
  rw [scanKeep_eval false p n h]
  simp [and_assoc]

/-- The per-role missing message of `render_custom`, once the entry
parses to a valid item number. -/
theorem roleIssue_eq (idx : Nat → Option String) (name txt : String) (pf : Bool) (item : Nat)
    (h : parse_item txt = some item) :
    roleIssue idx (name, txt, pf) =
      (if path_for_item idx item pf = none
       then some (missingMsg name item (if pf then "front" else "back")) else none) := by
  unfold roleIssue
  dsimp only
  rw [h]
  cases hp : path_for_item idx item pf with
  | none => simp [hp]
  | some p => simp [hp]

/-- The per-role resolution of `render_custom`, once the entry parses. -/
theorem resolveRole_eq (idx : Nat → Option String) (name txt : String) (pf : Bool) (item : Nat)
    (h : parse_item txt = some item) :
    resolveRole idx (name, txt, pf) = (path_for_item idx item pf).map (fun p => (item, p)) := by
  unfold resolveRole
  dsimp only
  rw [h]
  rfl

/-- `pick_random` by cases on its two draws. -/
theorem pick_random_cases (backs fronts : List String) (r : Nat) :
    (∃ bs f, pick_random backs fronts r = some (bs, f) ∧
      randomSample backs 4 r = some bs ∧ randomChoice fronts r = some f) ∨
    (pick_random backs fronts r = none ∧
      (randomSample backs 4 r = none ∨ randomChoice fronts r = none)) := by
  unfold pick_random
  cases hs : randomSample backs 4 r with
  | none => exact Or.inr ⟨rfl, Or.inl rfl⟩
  | some bs =>
    cases hc : randomChoice fronts r with
    | none => exact Or.inr ⟨rfl, Or.inr rfl⟩
    | some f => exact Or.inl ⟨bs, f, rfl, rfl, rfl⟩

/-! ### Order facts for the case-insensitive sort -/

theorem lexLe_refl (a : List Char) : lexLe a a = true := by
  induction a with
  | nil => rfl
  | cons c cs ih => simp [lexLe, ih]

theorem lexLe_total (a b : List Char) : lexLe a b = true ∨ lexLe b a = true := by
  induction a generalizing b with
  | nil => exact Or.inl rfl
  | cons c cs ih =>
    cases b with
    | nil => exact Or.inr rfl
    | cons d ds =>
      simp only [lexLe, Bool.or_eq_true, Bool.and_eq_true, decide_eq_true_eq, beq_iff_eq]
      rcases Nat.lt_trichotomy c.toNat d.toNat with h | h | h
      · exact Or.inl (Or.inl h)
      · rcases ih ds with h2 | h2
        · exact Or.inl (Or.inr ⟨h, h2⟩)
        · exact Or.inr (Or.inr ⟨h.symm, h2⟩)
      · exact Or.inr (Or.inl h)

theorem lexLe_trans (a b c : List Char) (h1 : lexLe a b = true) (h2 : lexLe b c = true) :
    lexLe a c = true := by
  induction a generalizing b c with
  | nil => rfl
  | cons x xs ih =>
    cases b with
    | nil => simp [lexLe] at h1
    | cons y ys =>
      cases c with
      | nil => simp [lexLe] at h2
      | cons z zs =>
        simp only [lexLe, Bool.or_eq_true, Bool.and_eq_true, decide_eq_true_eq,
          beq_iff_eq] at h1 h2 ⊢
        rcases h1 with h1 | ⟨h1e, h1r⟩
        · rcases h2 with h2 | ⟨h2e, h2r⟩
          · exact Or.inl (by omega)
          · exact Or.inl (by omega)
        · rcases h2 with h2 | ⟨h2e, h2r⟩
          · exact Or.inl (by omega)
          · exact Or.inr ⟨by omega, ih ys zs h1r h2r⟩

theorem mem_insLower (x p : String) (l : List String) :
    x ∈ insLower p l ↔ x = p ∨ x ∈ l := by
  induction l with
  | nil => simp [insLower]
  | cons q qs ih =>
    by_cases h : lexLe (lowerName p) (lowerName q) = true
    · simp [insLower, h]
    · simp only [insLower, if_neg h, List.mem_cons, ih]
      tauto

theorem mem_sortedLower (x : String) (l : List String) :
    x ∈ sortedLower l ↔ x ∈ l := by
  induction l with
  | nil => simp [sortedLower]
  | cons p ps ih => simp [sortedLower, mem_insLower, ih]

/-- The head of the case-insensitive sort belongs to the list and its
lowered name is `lexLe`-below every member's. -/
theorem sortedLower_head_min (l : List String) (c : String) (rest : List String)
    (h : sortedLower l = c :: rest) :
    c ∈ l ∧ ∀ x ∈ l, lexLe (lowerName c) (lowerName x) = true := by
  induction l generalizing c rest with
  | nil => cases h
  | cons p ps ih =>
    rw [sortedLower] at h
    cases hs : sortedLower ps with
    | nil =>
      rw [hs, insLower] at h
      cases h
      have hempty : ∀ x ∈ ps, False := by
        intro x hx
        have := (mem_sortedLower x ps).2 hx
        rw [hs] at this
        cases this
      refine ⟨List.mem_cons_self _ _, ?_⟩
      intro x hx
      rcases List.mem_cons.1 hx with rfl | hx
      · exact lexLe_refl _
      · exact absurd hx (fun hk => hempty x hk)
    | cons c0 rest0 =>
      rw [hs, insLower] at h
      obtain ⟨hc0, hmin⟩ := ih c0 rest0 hs
      by_cases hle : lexLe (lowerName p) (lowerName c0) = true
      · rw [if_pos hle] at h
        cases h
        refine ⟨List.mem_cons_self _ _, ?_⟩
        intro x hx
        rcases List.mem_cons.1 hx with rfl | hx
        · exact lexLe_refl _
        · exact lexLe_trans _ _ _ hle (hmin x hx)
      · rw [if_neg hle] at h
        cases h
        have hc0p : lexLe (lowerName c) (lowerName p) = true :=
          (lexLe_total (lowerName p) (lowerName c)).resolve_left hle
        refine ⟨List.mem_cons_of_mem _ hc0, ?_⟩
        intro x hx
        rcases List.mem_cons.1 hx with rfl | hx
        · exact hc0p
        · exact hmin x hx

/-- The canvas width never reads the input images. -/
theorem compose_canvas_width (im1 im2 im3 imf imc : Img) :
    (compose_canvas im1 im2 im3 imf imc).width = 1618 := rfl

/-- The canvas height never reads the input images. -/
theorem compose_canvas_height (im1 im2 im3 imf imc : Img) :
    (compose_canvas im1 im2 im3 imf imc).height = 1714 := rfl

/-! ## Claims -/

/-- C1: for every set of five input card paths, the composite canvas has
width `outer_margin + |back3_offset_x| + card_width + right_gap +
crop_width + outer_margin = 1618` and height the larger of the
stacked-cluster bottom (max card y + card height) and the crop-panel
bottom (margin + crop height), each plus the outer margin, `= 1714`. -/
theorem claim_C1_canvas_size :
    (∀ im1 im2 im3 imf imc : Img,
        (compose_canvas im1 im2 im3 imf imc).width = 1618 ∧
        (compose_canvas im1 im2 im3 imf imc).height = 1714) ∧
    (∀ fs b1 b2 b3 bc f img, compose_treasure fs b1 b2 b3 bc f = Except.ok img →
        img.width = 1618 ∧ img.height = 1714) ∧
    canvas_w = OUTER_MARGIN + (Int.natAbs OFF_BACK3.1 : Int) + (CARD_W : Int) +
      RIGHT_GAP + crop_w + OUTER_MARGIN ∧
    canvas_w = 1618 ∧
    canvas_h = max (max p1.2 (max p2.2 (max p3.2 p4.2)) + (CARD_H : Int) + OUTER_MARGIN)
      (OUTER_MARGIN + crop_h + OUTER_MARGIN) ∧
    canvas_h = 1714 := by
  refine ⟨fun _ _ _ _ _ => ⟨rfl, rfl⟩, ?_, by decide, by decide, by decide, by decide⟩
  intro fs b1 b2 b3 bc f img h
  rcases compose_treasure_cases fs b1 b2 b3 bc f with ⟨i1, i2, i3, i4, i5, hok, -⟩ | ⟨p, herr, -⟩
  · rw [h] at hok
    cases hok
    exact ⟨rfl, rfl⟩
  · rw [h] at herr
    cases herr

set_option maxRecDepth 8192 in
/-- C1 witness: a concrete all-loadable file system renders a canvas of
the stated size. -/
theorem claim_C1_canvas_size_witness :
    compose_treasure (fun _ => some (mkImage CARD_W CARD_H (0, 0, 0, 255)))
        "b1.jpg" "b2.jpg" "b3.jpg" "bc.jpg" "f.jpg" =
      Except.ok (compose_canvas (mkImage CARD_W CARD_H (0, 0, 0, 255))
        (mkImage CARD_W CARD_H (0, 0, 0, 255)) (mkImage CARD_W CARD_H (0, 0, 0, 255))
        (mkImage CARD_W CARD_H (0, 0, 0, 255)) (mkImage CARD_W CARD_H (0, 0, 0, 255))) ∧
    (compose_canvas (mkImage CARD_W CARD_H (0, 0, 0, 255))
        (mkImage CARD_W CARD_H (0, 0, 0, 255)) (mkImage CARD_W CARD_H (0, 0, 0, 255))
        (mkImage CARD_W CARD_H (0, 0, 0, 255))
        (mkImage CARD_W CARD_H (0, 0, 0, 255))).width = 1618 := by
  refine ⟨rfl, ?_⟩
  exact (claim_C1_canvas_size.2.1 (fun _ => some (mkImage CARD_W CARD_H (0, 0, 0, 255)))
    "b1.jpg" "b2.jpg" "b3.jpg" "bc.jpg" "f.jpg" _ rfl).1

/-- C8: the Compositor is deterministic — the same five inputs give the
same canvas — and the output dimensions coincide for any two input
quintuples, so they depend only on the fixed layout constants, never on
pixel content or original dimensions. -/
theorem claim_C8_compositor_determinism :
    (∀ fs b1 b2 b3 bc f,
        compose_treasure fs b1 b2 b3 bc f = compose_treasure fs b1 b2 b3 bc f) ∧
    (∀ x1 x2 x3 x4 x5 y1 y2 y3 y4 y5 : Img,
        (compose_canvas x1 x2 x3 x4 x5).width = (compose_canvas y1 y2 y3 y4 y5).width ∧
        (compose_canvas x1 x2 x3 x4 x5).height = (compose_canvas y1 y2 y3 y4 y5).height) :=
  ⟨fun _ _ _ _ _ _ => rfl, fun x1 x2 x3 x4 x5 y1 y2 y3 y4 y5 =>
    ⟨(compose_canvas_width x1 x2 x3 x4 x5).trans (compose_canvas_width y1 y2 y3 y4 y5).symm,
     (compose_canvas_height x1 x2 x3 x4 x5).trans (compose_canvas_height y1 y2 y3 y4 y5).symm⟩⟩

/-- C5: when several files share a card number, the browse index picks
the file whose name sorts first case-insensitively (its lowered name is
`lexLe`-below every bucket member's), and a second scan of the same
listing returns the same mapping. -/
theorem claim_C5_index_collision_policy :
    (∀ files n p q, p ∈ bucketFiles files n → q ∈ bucketFiles files n → p ≠ q →
        ∃ c, index_all_cards files n = some c ∧ c ∈ bucketFiles files n ∧
          ∀ x ∈ bucketFiles files n, lexLe (lowerName c) (lowerName x) = true) ∧
    (∀ files n, index_all_cards files n = index_all_cards files n) := by
  constructor
  · intro files n p q hp hq hpq
    cases hs : sortedLower (bucketFiles files n) with
    | nil =>
      exfalso
      have := (mem_sortedLower p (bucketFiles files n)).2 hp
      rw [hs] at this
      cases this
    | cons c rest =>
      obtain ⟨hcmem, hcmin⟩ := sortedLower_head_min _ _ _ hs
      have hcb : chosenBase files n = some c := by
        unfold chosenBase
        rw [hs]
        rfl
      have hcond : ¬(n = 1 ∧ chosenBase files 1 = none) := by
        rintro ⟨h1, h2⟩
        rw [h1] at hcb
        rw [hcb] at h2
        cases h2
      refine ⟨c, ?_, hcmem, hcmin⟩
      unfold index_all_cards
      rw [if_neg hcond, hcb]
  · intro files n
    rfl

/-- C5 witness: `b22.jpg` and `A22.jpg` collide on card 22 and the index
resolves the collision to the case-insensitively first file. -/
theorem claim_C5_index_collision_policy_witness :
    ("b22.jpg" : String) ≠ "A22.jpg" ∧
    ∃ c, index_all_cards ["b22.jpg", "A22.jpg"] 22 = some c ∧
      c ∈ bucketFiles ["b22.jpg", "A22.jpg"] 22 ∧
      ∀ x ∈ bucketFiles ["b22.jpg", "A22.jpg"] 22,
        lexLe (lowerName c) (lowerName x) = true := by
  refine ⟨by decide, ?_⟩
  exact claim_C5_index_collision_policy.1 ["b22.jpg", "A22.jpg"] 22 "b22.jpg" "A22.jpg"
    (by decide) (by decide) (by decide)

/-- C9: when card #1 is absent, card #2 present with chosen file `p2`,
and some unnumbered file's digit-stripped stem matches `p2`'s, the index
maps 1 to the case-insensitively first such candidate; with no matching
candidate, card #1 stays absent. -/
theorem claim_C9_special_case_one :
    ∀ files p2,
      chosenBase files 1 = none →
      chosenBase files 2 = some p2 →
      (inferredCandidates files p2 ≠ [] →
        ∃ q, index_all_cards files 1 = some q ∧ q ∈ inferredCandidates files p2 ∧
          ∀ x ∈ inferredCandidates files p2, lexLe (lowerName q) (lowerName x) = true) ∧
      (inferredCandidates files p2 = [] → index_all_cards files 1 = none) := by
  intro files p2 h1 h2
  constructor
  · intro hne
    cases hs : sortedLower (inferredCandidates files p2) with
    | nil =>
      exfalso
      cases hcand : inferredCandidates files p2 with
      | nil => exact hne hcand
      | cons a as =>
        have ha : a ∈ sortedLower (inferredCandidates files p2) :=
          (mem_sortedLower _ _).2 (by rw [hcand]; exact List.mem_cons_self _ _)
        rw [hs] at ha
        cases ha
    | cons q rest =>
      obtain ⟨hqmem, hqmin⟩ := sortedLower_head_min _ _ _ hs
      refine ⟨q, ?_, hqmem, hqmin⟩
      unfold index_all_cards
      rw [if_pos ⟨rfl, h1⟩, h2]
      show (sortedLower (inferredCandidates files p2)).head? = some q
      rw [hs]
      rfl
  · intro hemp
    unfold index_all_cards
    rw [if_pos ⟨rfl, h1⟩, h2]
    show (sortedLower (inferredCandidates files p2)).head? = none
    rw [hemp]
    rfl

/-- C9 witness: with `deck2.jpg` as card #2 and the unnumbered
`deck.jpg`/`deck.jpeg` matching its stripped stem, card #1 resolves. -/
theorem claim_C9_special_case_one_witness :
    chosenBase ["deck2.jpg", "deck.jpg", "deck.jpeg"] 1 = none ∧
    chosenBase ["deck2.jpg", "deck.jpg", "deck.jpeg"] 2 = some "deck2.jpg" ∧
    ∃ q, index_all_cards ["deck2.jpg", "deck.jpg", "deck.jpeg"] 1 = some q ∧
      q ∈ inferredCandidates ["deck2.jpg", "deck.jpg", "deck.jpeg"] "deck2.jpg" ∧
      ∀ x ∈ inferredCandidates ["deck2.jpg", "deck.jpg", "deck.jpeg"] "deck2.jpg",
        lexLe (lowerName q) (lowerName x) = true := by
  refine ⟨by decide, by decide, ?_⟩
  exact (claim_C9_special_case_one ["deck2.jpg", "deck.jpg", "deck.jpeg"] "deck2.jpg"
    (by decide) (by decide)).1 (by decide)

/-- C2: random selection succeeds exactly when the folder has at least
4 back files and 1 front file; a successful pick draws 4 back files
without replacement (distinct files when the back list has no
duplicates) plus one front; the exact 22/24/26/28 + 21 folder always
succeeds. -/
theorem claim_C2_random_selection :
    (∀ (backs fronts : List String) r,
        (pick_random backs fronts r).isSome = true ↔
          (4 ≤ backs.length ∧ 1 ≤ fronts.length)) ∧
    (∀ backs fronts r bs f, backs.Nodup → pick_random backs fronts r = some (bs, f) →
        bs.length = 4 ∧ bs.Nodup ∧ (∀ x ∈ bs, x ∈ backs) ∧ f ∈ fronts) ∧
    ((scan_cards ["t22.jpg", "t24.jpg", "t26.jpg", "t28.jpg", "t21.jpg"]).1.length = 1 ∧
     (scan_cards ["t22.jpg", "t24.jpg", "t26.jpg", "t28.jpg", "t21.jpg"]).2.length = 4 ∧
     ∀ r, (pick_random (scan_cards ["t22.jpg", "t24.jpg", "t26.jpg", "t28.jpg", "t21.jpg"]).2
        (scan_cards ["t22.jpg", "t24.jpg", "t26.jpg", "t28.jpg", "t21.jpg"]).1 r).isSome
          = true) := by
  have hiff : ∀ (backs fronts : List String) r,
      (pick_random backs fronts r).isSome = true ↔
        (4 ≤ backs.length ∧ 1 ≤ fronts.length) := by
    intro backs fronts r
    rcases pick_random_cases backs fronts r with ⟨bs, f, hpk, hs, hc⟩ | ⟨hpk, hbad⟩
    · rw [hpk]
      constructor
      · intro
        exact ⟨(randomSample_isSome 4 backs r).1 (by rw [hs]; rfl),
          (randomChoice_spec fronts r).1.1 (by rw [hc]; rfl)⟩
      · intro
        rfl
    · rw [hpk]
      constructor
      · intro hx
        exact Bool.noConfusion hx
      · rintro ⟨h4, h1⟩
        rcases hbad with hb | hb
        · have hsm := (randomSample_isSome 4 backs r).2 h4
          rw [hb] at hsm
          exact Bool.noConfusion hsm
        · have hsm := (randomChoice_spec fronts r).1.2 h1
          rw [hb] at hsm
          exact Bool.noConfusion hsm
  refine ⟨hiff, ?_, by decide, by decide, ?_⟩
  · intro backs fronts r bs f hnd hpk
    rcases pick_random_cases backs fronts r with ⟨bs2, f2, hpk2, hs, hc⟩ | ⟨hpk2, -⟩
    · rw [hpk2] at hpk
      cases hpk
      obtain ⟨hl, hm, hndout⟩ := randomSample_spec 4 backs r _ hs
      exact ⟨hl, hndout hnd, hm, (randomChoice_spec fronts r).2 _ hc⟩
    · rw [hpk2] at hpk
      cases hpk
  · intro r
    rw [hiff]
    exact ⟨by decide, by decide⟩

/-- C2 witness: a draw from a concrete 4-back/1-front folder yields 4
distinct backs and a front. -/
theorem claim_C2_random_selection_witness :
    (["a.jpg", "b.jpg", "c.jpg", "d.jpg"] : List String).length = 4 ∧
    (["a.jpg", "b.jpg", "c.jpg", "d.jpg"] : List String).Nodup ∧
    (∀ x ∈ (["a.jpg", "b.jpg", "c.jpg", "d.jpg"] : List String),
      x ∈ (["a.jpg", "b.jpg", "c.jpg", "d.jpg"] : List String)) ∧
    ("f.jpg" : String) ∈ (["f.jpg"] : List String) :=
  claim_C2_random_selection.2.1 ["a.jpg", "b.jpg", "c.jpg", "d.jpg"] ["f.jpg"] 0
    ["a.jpg", "b.jpg", "c.jpg", "d.jpg"] "f.jpg" (by decide) (by decide)

/-- C10 (implicit): the random scanner applies no collision policy —
every globbed file whose number qualifies lands in the corresponding
list, the back list's length counts files (not distinct numbers), and a
concrete folder with two #22 files shows one draw returning two distinct
files that carry the same card number. -/
theorem claim_C10_scan_keeps_duplicates :
    (∀ files p, p ∈ globJpgs files → scanKeep false p = true → p ∈ (scan_cards files).2) ∧
    (∀ files p, p ∈ globJpgs files → scanKeep true p = true → p ∈ (scan_cards files).1) ∧
    (∀ files, (scan_cards files).2.length =
      ((globJpgs files).filter (scanKeep false)).length) ∧
    (scan_cards ["a22.jpg", "b22.jpg", "c24.jpg", "d26.jpg", "x21.jpg"] =
        (["x21.jpg"], ["a22.jpg", "b22.jpg", "c24.jpg", "d26.jpg"]) ∧
      extract_trailing_number "a22.jpg" = some 22 ∧
      extract_trailing_number "b22.jpg" = some 22 ∧
      ("a22.jpg" : String) ≠ "b22.jpg" ∧
      pick_random ["a22.jpg", "b22.jpg", "c24.jpg", "d26.jpg"] ["x21.jpg"] 0 =
        some (["a22.jpg", "b22.jpg", "c24.jpg", "d26.jpg"], "x21.jpg")) := by
  refine ⟨?_, ?_, fun _ => rfl, by decide, by decide, by decide, by decide, by decide⟩
  · intro files p hp hk
    show p ∈ (globJpgs files).filter (scanKeep false)
    exact List.mem_filter.2 ⟨hp, hk⟩
  · intro files p hp hk
    show p ∈ (globJpgs files).filter (scanKeep true)
    exact List.mem_filter.2 ⟨hp, hk⟩

/-- C10 witness: the duplicate-numbered `b22.jpg` is kept alongside
`a22.jpg`. -/
theorem claim_C10_scan_keeps_duplicates_witness :
    ("b22.jpg" : String) ∈
      (scan_cards ["a22.jpg", "b22.jpg", "c24.jpg", "d26.jpg", "x21.jpg"]).2 :=
  claim_C10_scan_keeps_duplicates.1 ["a22.jpg", "b22.jpg", "c24.jpg", "d26.jpg", "x21.jpg"]
    "b22.jpg" (by decide) (by decide)

/-- An image store with a single unreadable file, for the C7 witness. -/
def fsBad : String → Option Img :=
  fun p => if p = "bad.jpg" then none else some (mkImage CARD_W CARD_H (0, 0, 0, 255))

/-- C6: manual resolution prefers the back face unless the role is
"front" (which prefers the front face), falls back to the opposite face
when the preferred one is absent, yields nothing when neither face is
indexed, and `render_custom` reports every failing role at once — the
warning list is exactly the concatenation, in role order, of one
message per unresolvable role, naming its item and required face — while
it renders when all five roles resolve. -/
theorem claim_C6_custom_missing_cards :
    (∀ idx item p, idx (front_card_num_for_item item + 1) = some p →
        path_for_item idx item false = some p) ∧
    (∀ idx item p, idx (front_card_num_for_item item + 1) = none →
        idx (front_card_num_for_item item) = some p →
        path_for_item idx item false = some p) ∧
    (∀ idx item p, idx (front_card_num_for_item item) = some p →
        path_for_item idx item true = some p) ∧
    (∀ idx item p, idx (front_card_num_for_item item) = none →
        idx (front_card_num_for_item item + 1) = some p →
        path_for_item idx item true = some p) ∧
    (∀ idx item pf, idx (front_card_num_for_item item) = none →
        idx (front_card_num_for_item item + 1) = none →
        path_for_item idx item pf = none) ∧
    (∀ idx ft b1 b2 b3 bc i1 i2 i3 i4 i5,
        parse_item ft = some i1 → parse_item b1 = some i2 → parse_item b2 = some i3 →
        parse_item b3 = some i4 → parse_item bc = some i5 →
        ∀ msgs, render_custom idx ft b1 b2 b3 bc = Except.error msgs →
          msgs =
            (if path_for_item idx i1 true = none
              then [missingMsg "Front" i1 "front"] else []) ++
            (if path_for_item idx i2 false = none
              then [missingMsg "Back #1" i2 "back"] else []) ++
            (if path_for_item idx i3 false = none
              then [missingMsg "Back #2" i3 "back"] else []) ++
            (if path_for_item idx i4 false = none
              then [missingMsg "Back #3" i4 "back"] else []) ++
            (if path_for_item idx i5 false = none
              then [missingMsg "Plot Hook" i5 "back"] else []) ∧
          msgs ≠ []) ∧
    (∀ idx ft b1 b2 b3 bc i1 i2 i3 i4 i5 q1 q2 q3 q4 q5,
        parse_item ft = some i1 → parse_item b1 = some i2 → parse_item b2 = some i3 →
        parse_item b3 = some i4 → parse_item bc = some i5 →
        path_for_item idx i1 true = some q1 → path_for_item idx i2 false = some q2 →
        path_for_item idx i3 false = some q3 → path_for_item idx i4 false = some q4 →
        path_for_item idx i5 false = some q5 →
        render_custom idx ft b1 b2 b3 bc = Except.ok (q2, q3, q4, q5, q1)) := by
  refine ⟨?_, ?_, ?_, ?_, ?_, ?_, ?_⟩
  · intro idx item p h
    unfold path_for_item
    dsimp only
    rw [h]
    rfl
  · intro idx item p hb hf
    unfold path_for_item
    dsimp only
    rw [hb, hf]
    rfl
  · intro idx item p h
    unfold path_for_item
    dsimp only
    rw [h]
    rfl
  · intro idx item p hf hb
    unfold path_for_item
    dsimp only
    rw [hf, hb]
    rfl
  · intro idx item pf hf hb
    unfold path_for_item
    dsimp only
    cases pf with
    | true => rw [hf, hb]; rfl
    | false => rw [hb, hf]; rfl
  · intro idx ft b1 b2 b3 bc i1 i2 i3 i4 i5 h1 h2 h3 h4 h5 msgs hr
    unfold render_custom customLabels at hr
    simp only [List.filterMap_cons, List.filterMap_nil] at hr
    rw [roleIssue_eq idx "Front" ft true i1 h1, roleIssue_eq idx "Back #1" b1 false i2 h2,
      roleIssue_eq idx "Back #2" b2 false i3 h3, roleIssue_eq idx "Back #3" b3 false i4 h4,
      roleIssue_eq idx "Plot Hook" bc false i5 h5] at hr
    rw [resolveRole_eq idx "Front" ft true i1 h1, resolveRole_eq idx "Back #1" b1 false i2 h2,
      resolveRole_eq idx "Back #2" b2 false i3 h3, resolveRole_eq idx "Back #3" b3 false i4 h4,
      resolveRole_eq idx "Plot Hook" bc false i5 h5] at hr
    cases hp1 : path_for_item idx i1 true <;> rw [hp1] at hr <;>
      cases hp2 : path_for_item idx i2 false <;> rw [hp2] at hr <;>
        cases hp3 : path_for_item idx i3 false <;> rw [hp3] at hr <;>
          cases hp4 : path_for_item idx i4 false <;> rw [hp4] at hr <;>
            cases hp5 : path_for_item idx i5 false <;> rw [hp5] at hr <;>
              simp_all
    all_goals exact fun he => absurd (hr.trans he) (by simp)
  · intro idx ft b1 b2 b3 bc i1 i2 i3 i4 i5 q1 q2 q3 q4 q5 h1 h2 h3 h4 h5 hp1 hp2 hp3 hp4 hp5
    unfold render_custom customLabels
    simp only [List.filterMap_cons, List.filterMap_nil]
    rw [roleIssue_eq idx "Front" ft true i1 h1, roleIssue_eq idx "Back #1" b1 false i2 h2,
      roleIssue_eq idx "Back #2" b2 false i3 h3, roleIssue_eq idx "Back #3" b3 false i4 h4,
      roleIssue_eq idx "Plot Hook" bc false i5 h5,
      resolveRole_eq idx "Front" ft true i1 h1, resolveRole_eq idx "Back #1" b1 false i2 h2,
      resolveRole_eq idx "Back #2" b2 false i3 h3, resolveRole_eq idx "Back #3" b3 false i4 h4,
      resolveRole_eq idx "Plot Hook" bc false i5 h5, hp1, hp2, hp3, hp4, hp5]
    simp

/-- An empty index, for the C6 witness. -/
def idxEmpty : Nat → Option String := fun _ => none

/-- C6 witness: with an empty index all five roles of a render fail and
the warning lists all five messages, and a singleton index exercises the
back-preference rule. -/
theorem claim_C6_custom_missing_cards_witness :
    (([missingMsg "Front" 1 "front", missingMsg "Back #1" 2 "back",
       missingMsg "Back #2" 3 "back", missingMsg "Back #3" 4 "back",
       missingMsg "Plot Hook" 5 "back"] : List String) =
      (if path_for_item idxEmpty 1 true = none
        then [missingMsg "Front" 1 "front"] else []) ++
      (if path_for_item idxEmpty 2 false = none
        then [missingMsg "Back #1" 2 "back"] else []) ++
      (if path_for_item idxEmpty 3 false = none
        then [missingMsg "Back #2" 3 "back"] else []) ++
      (if path_for_item idxEmpty 4 false = none
        then [missingMsg "Back #3" 4 "back"] else []) ++
      (if path_for_item idxEmpty 5 false = none
        then [missingMsg "Plot Hook" 5 "back"] else []) ∧
     ([missingMsg "Front" 1 "front", missingMsg "Back #1" 2 "back",
       missingMsg "Back #2" 3 "back", missingMsg "Back #3" 4 "back",
       missingMsg "Plot Hook" 5 "back"] : List String) ≠ []) ∧
    path_for_item (fun n => if n = 22 then some "x22.jpg" else none) 1 false =
      some "x22.jpg" := by
  constructor
  · exact claim_C6_custom_missing_cards.2.2.2.2.2.1 idxEmpty "1" "2" "3" "4" "5" 1 2 3 4 5
      (by decide) (by decide) (by decide) (by decide) (by decide) _ rfl
  · exact claim_C6_custom_missing_cards.1 (fun n => if n = 22 then some "x22.jpg" else none)
      1 "x22.jpg" (by decide)

/-- C7: a failed load of any of the five inputs makes `compose_treasure`
return the error naming an offending (unloadable) path and no canvas at
all, and `generate` leaves the caller's state (last canvas and recorded
names) unchanged whenever it reports an error. -/
theorem claim_C7_render_atomicity :
    (∀ fs b1 b2 b3 bc f,
        (fs b1 = none ∨ fs b2 = none ∨ fs b3 = none ∨ fs f = none ∨ fs bc = none) →
        ∃ e : ImageLoadError, compose_treasure fs b1 b2 b3 bc f = Except.error e ∧
          fs e.path = none ∧
          (e.path = b1 ∨ e.path = b2 ∨ e.path = b3 ∨ e.path = f ∨ e.path = bc)) ∧
    (∀ fs backs fronts r st res msg,
        generate fs backs fronts r st = (res, some msg) → res = st) := by
  constructor
  · intro fs b1 b2 b3 bc f hfail
    rcases compose_treasure_cases fs b1 b2 b3 bc f with
      ⟨i1, i2, i3, i4, i5, hok, hs1, hs2, hs3, hs4, hs5⟩ | ⟨p, herr, hnone, hmem⟩
    · exfalso
      rcases hfail with h | h | h | h | h
      · rw [h] at hs1
        exact Bool.noConfusion hs1
      · rw [h] at hs2
        exact Bool.noConfusion hs2
      · rw [h] at hs3
        exact Bool.noConfusion hs3
      · rw [h] at hs4
        exact Bool.noConfusion hs4
      · rw [h] at hs5
        exact Bool.noConfusion hs5
    · exact ⟨⟨p⟩, herr, hnone, hmem⟩
  · intro fs backs fronts r st res msg h
    unfold generate at h
    repeat' split at h
    all_goals injection h with h1 h2
    all_goals first
      | exact h1.symm
      | cases h2

/-- C7 witness: with `bad.jpg` unreadable the compositor errors on it,
and a failing `generate` run returns its input state. -/
theorem claim_C7_render_atomicity_witness :
    (∃ e : ImageLoadError,
        compose_treasure fsBad "a.jpg" "bad.jpg" "c.jpg" "d.jpg" "e.jpg" = Except.error e ∧
        fsBad e.path = none ∧
        (e.path = "a.jpg" ∨ e.path = "bad.jpg" ∨ e.path = "c.jpg" ∨ e.path = "e.jpg" ∨
          e.path = "d.jpg")) ∧
    (⟨none, []⟩ : RandomState) = ⟨none, []⟩ := by
  constructor
  · exact claim_C7_render_atomicity.1 fsBad "a.jpg" "bad.jpg" "c.jpg" "d.jpg" "e.jpg"
      (Or.inr (Or.inl rfl))
  · exact claim_C7_render_atomicity.2 (fun _ => none) [] [] 0 ⟨none, []⟩ ⟨none, []⟩
      "not enough cards to sample" rfl

/-- C3 counterexample: `a25.Jpg` is `<stem><N>.jpg` with a
case-insensitive `.jpg` extension, stem `a` and N = 25 (odd, in
[21, 220]) — the case-insensitive extraction regex even reads 25 — yet
the scanner's four case-sensitive globs (`*.jpg`, `*.JPG`, `*.jpeg`,
`*.JPEG`) miss the mixed-case extension, so the file lands in neither
list instead of the front list. -/
theorem claim_C3_counterexample_mixed_case_ext :
    ("a25.Jpg" : String).data = ['a'] ++ ['2', '5'] ++ ['.', 'J', 'p', 'g'] ∧
    ['.', 'J', 'p', 'g'].map Char.toLower = ['.', 'j', 'p', 'g'] ∧
    digitsToNat ['2', '5'] = 25 ∧ (21 ≤ 25 ∧ 25 ≤ 220 ∧ 25 % 2 = 1) ∧
    extract_trailing_number "a25.Jpg" = some 25 ∧
    scan_cards ["a25.Jpg"] = ([], []) := by
  decide

/-- C3 (amended): for filenames `stem ++ digits ++ ext` whose stem does
not end in a digit and whose extension is exactly one of the four
globbed spellings `.jpg`, `.JPG`, `.jpeg`, `.JPEG`, the scanner extracts
the trailing number N and puts the file in the front list when N is odd
and in the back list when N is even (for N in [21, 220]); any scanned
file whose extracted number is missing or outside [21, 220] appears in
neither list. -/
theorem claim_C3_scan_classification :
    (∀ (stem ds ext : List Char) (files : List String) (name : String),
        name.data = stem ++ ds ++ ext → ext ∈ globExts →
        ds ≠ [] → ds.all Char.isDigit = true →
        (∀ c, stem.getLast? = some c → c.isDigit = false) →
        extract_trailing_number name = some (digitsToNat ds) ∧
        (name ∈ files → 21 ≤ digitsToNat ds → digitsToNat ds ≤ 220 →
          (digitsToNat ds % 2 = 1 → name ∈ (scan_cards files).1) ∧
          (digitsToNat ds % 2 = 0 → name ∈ (scan_cards files).2))) ∧
    (∀ files p, p ∈ files →
        (∀ n, extract_trailing_number p = some n → ¬(21 ≤ n ∧ n ≤ 220)) →
        p ∉ (scan_cards files).1 ∧ p ∉ (scan_cards files).2) := by
  constructor
  · intro stem ds ext files name hname hext hds hdig hstem
    have hx := extract_of_decomposition stem ds ext name hname hext hds hdig hstem
    refine ⟨hx, ?_⟩
    intro hmem h21 h220
    have hrev : name.data.reverse = ext.reverse ++ (ds.reverse ++ stem.reverse) := by
      rw [hname, List.reverse_append, List.reverse_append]
    have hglob : name ∈ globJpgs files := by
      apply mem_globJpgs files name hmem
      have hext' : ext = ['.', 'j', 'p', 'g'] ∨ ext = ['.', 'J', 'P', 'G'] ∨
          ext = ['.', 'j', 'p', 'e', 'g'] ∨ ext = ['.', 'J', 'P', 'E', 'G'] := by
        simpa [globExts] using hext
      rcases hext' with rfl | rfl | rfl | rfl
      · exact Or.inl (by unfold hasExt; rw [hrev]; simp [List.isPrefixOf])
      · exact Or.inr (Or.inl (by unfold hasExt; rw [hrev]; simp [List.isPrefixOf]))
      · exact Or.inr (Or.inr (Or.inl (by unfold hasExt; rw [hrev]; simp [List.isPrefixOf])))
      · exact Or.inr (Or.inr (Or.inr (by unfold hasExt; rw [hrev]; simp [List.isPrefixOf])))
    constructor
    · intro hodd
      show name ∈ (globJpgs files).filter (scanKeep true)
      exact List.mem_filter.2 ⟨hglob, (scanKeep_true_iff name _ hx).2 ⟨h21, h220, hodd⟩⟩
    · intro heven
      show name ∈ (globJpgs files).filter (scanKeep false)
      exact List.mem_filter.2 ⟨hglob, (scanKeep_false_iff name _ hx).2 ⟨h21, h220, heven⟩⟩
  · intro files p hp hbad
    constructor
    · intro hmem
      have hmem' : p ∈ (globJpgs files).filter (scanKeep true) := hmem
      have hk := (List.mem_filter.1 hmem').2
      cases hex : extract_trailing_number p with
      | none =>
        rw [scanKeep_none true p hex] at hk
        exact Bool.noConfusion hk
      | some n =>
        have := (scanKeep_true_iff p n hex).1 hk
        exact hbad n hex ⟨this.1, this.2.1⟩
    · intro hmem
      have hmem' : p ∈ (globJpgs files).filter (scanKeep false) := hmem
      have hk := (List.mem_filter.1 hmem').2
      cases hex : extract_trailing_number p with
      | none =>
        rw [scanKeep_none false p hex] at hk
        exact Bool.noConfusion hk
      | some n =>
        have := (scanKeep_false_iff p n hex).1 hk
        exact hbad n hex ⟨this.1, this.2.1⟩

/-- C3 witness: `a25.jpg` decomposes as stem `a`, digits `25`, extension
`.jpg`, and the scanner classifies it as a front. -/
theorem claim_C3_scan_classification_witness :
    extract_trailing_number "a25.jpg" = some (digitsToNat ['2', '5']) ∧
    (digitsToNat ['2', '5'] % 2 = 1 → ("a25.jpg" : String) ∈ (scan_cards ["a25.jpg"]).1) ∧
    (digitsToNat ['2', '5'] % 2 = 0 → ("a25.jpg" : String) ∈ (scan_cards ["a25.jpg"]).2) := by
  have h := claim_C3_scan_classification.1 ['a'] ['2', '5'] ['.', 'j', 'p', 'g']
    ["a25.jpg"] "a25.jpg" (by decide) (by decide) (by decide) (by decide)
    (by intro c hc; cases hc; decide)
  exact ⟨h.1, (h.2 (by decide) (by decide) (by decide)).1, (h.2 (by decide) (by decide) (by decide)).2⟩

/-- C4: the item/card-number maps are mutually inverse on fronts: item
`i` in 1..100 has front card `21 + (i-1)*2`, odd and in [21, 219], with
back `front + 1`; an odd card `N` in [21, 219] maps to item
`(N-21)/2 + 1` and back to front card `N` (also through the index-aware
`_card_num_for_item` whenever `N` is indexed). -/
theorem claim_C4_item_roundtrip :
    (∀ i, 1 ≤ i → i ≤ 100 →
        front_card_num_for_item i = 21 + (i - 1) * 2 ∧
        front_card_num_for_item i % 2 = 1 ∧
        21 ≤ front_card_num_for_item i ∧ front_card_num_for_item i ≤ 219 ∧
        item_num_for_card (front_card_num_for_item i) = some i) ∧
    (∀ N, 21 ≤ N → N ≤ 219 → N % 2 = 1 →
        item_num_for_card N = some ((N - 21) / 2 + 1) ∧
        front_card_num_for_item ((N - 21) / 2 + 1) = N) ∧
    (∀ idx N, 21 ≤ N → N ≤ 219 → N % 2 = 1 → (idx N).isSome →
        card_num_for_item idx ((N - 21) / 2 + 1) = some N) := by
  refine ⟨?_, ?_, ?_⟩
  · intro i h1 h2
    unfold front_card_num_for_item item_num_for_card
    have hodd : (21 + (i - 1) * 2) % 2 = 1 := by omega
    refine ⟨rfl, hodd, by omega, by omega, ?_⟩
    rw [if_pos (by omega), if_pos hodd]
    congr 1
    omega
  · intro N h1 h2 h3
    unfold front_card_num_for_item item_num_for_card
    rw [if_pos (by omega), if_pos h3]
    exact ⟨rfl, by omega⟩
  · intro idx N h1 h2 h3 h4
    unfold card_num_for_item
    have hN : 21 + ((N - 21) / 2 + 1 - 1) * 2 = N := by omega
    rw [hN, if_pos h4]

/-- C4 witness: item 9 ↔ front card 37, and an index holding card 37
maps item 9 back to it. -/
theorem claim_C4_item_roundtrip_witness :
    front_card_num_for_item 9 = 37 ∧ item_num_for_card 37 = some 9 ∧
    front_card_num_for_item ((37 - 21) / 2 + 1) = 37 ∧
    card_num_for_item (fun n => if n = 37 then some "x37.jpg" else none)
      ((37 - 21) / 2 + 1) = some 37 := by
  refine ⟨by decide, ?_, ?_, ?_⟩
  · exact ((claim_C4_item_roundtrip.1 9 (by decide) (by decide)).2.2.2.2).trans (by decide)
  · exact (claim_C4_item_roundtrip.2.1 37 (by decide) (by decide) (by decide)).2
  · exact claim_C4_item_roundtrip.2.2 (fun n => if n = 37 then some "x37.jpg" else none)
      37 (by decide) (by decide) (by decide) (by decide)

end EndlessTreasure
